import Mathlib

/-!
Verification development for the Freshdesk MBOX importer
(`freshdesk_mbox_importer/importer.py`).

The Python module is shallowly embedded below.  Pure helpers become Lean
functions; stateful code (the SQLite progress store, the push loop) is
modelled with explicit state passing; fallible code (date parsing, HTTP
calls) returns `Except`/`Option`.  Standard-library calls made by the
module (`email.utils.parseaddr`, `email.utils.parsedate_to_datetime`,
`email.header.decode_header`, `bytes.decode(errors="replace")`,
`html.escape`, `re.search`) are embedded for the fragment of their input
language that the importer and the theorems below exercise; each such
model documents its scope.
-/

/-! ## Character-list string utilities

Python string primitives used by the importer, implemented on `List Char`
so that every theorem below evaluates inside the kernel.  Only the ASCII
whitespace set is modelled for `str.strip` and only ASCII case folding
for `str.lower`, which covers every string the importer and the theorems
manipulate.
-/

/-- ASCII whitespace, the fragment of Python `str.strip()` whitespace used here. -/
def pyIsSpace (c : Char) : Bool :=
  c = ' ' || c = '\t' || c = '\n' || c = '\r' || c = '\x0b' || c = '\x0c'

/-- Model of Python `str.strip()` (ASCII whitespace). -/
def pyStrip (s : String) : String :=
  String.mk (((s.toList.dropWhile pyIsSpace).reverse.dropWhile pyIsSpace).reverse)

/-- ASCII lower-casing of one character, as Python `str.lower()` does on ASCII. -/
def pyLowerChar (c : Char) : Char :=
  if 'A' ≤ c && c ≤ 'Z' then Char.ofNat (c.toNat + 32) else c

/-- Model of Python `str.lower()` (ASCII fragment). -/
def pyLower (s : String) : String :=
  String.mk (s.toList.map pyLowerChar)

/-- Split a character list on a single separator character.
Mirrors Python `str.split(sep)` for a one-character separator:
the empty string yields `[""]`. -/
def splitCharsOn (sep : Char) : List Char → List (List Char)
  | [] => [[]]
  | c :: rest =>
    match splitCharsOn sep rest with
    | [] => if c = sep then [[], []] else [[c]]
    | grp :: grps => if c = sep then [] :: grp :: grps else (c :: grp) :: grps

/-- Model of Python `str.split(sep)` for a one-character separator. -/
def pySplit (sep : Char) (s : String) : List String :=
  (splitCharsOn sep s.toList).map String.mk

/-- Does the second list occur as a leading segment of the first list? -/
def leadsWith : List Char → List Char → Bool
  | _, [] => true
  | [], _ :: _ => false
  | c :: s, p :: ps => c = p && leadsWith s ps

/-- Does `pat` occur as a contiguous run anywhere inside `s`?
Models Python `pat in s` and `re.search` of a literal pattern. -/
def containsRun (s pat : List Char) : Bool :=
  match s with
  | [] => leadsWith [] pat
  | _ :: rest => leadsWith s pat || containsRun rest pat

/-- String-level wrapper for `containsRun`. -/
def strContains (s pat : String) : Bool :=
  containsRun s.toList pat.toList

/-- Replace every occurrence of the character `old` by the string `new`.
Models Python `str.replace(old, new)` for a one-character `old`,
the only shape the importer uses. -/
def replaceChar (old : Char) (new : List Char) : List Char → List Char
  | [] => []
  | c :: rest => if c = old then new ++ replaceChar old new rest
                 else c :: replaceChar old new rest

/-- String-level wrapper for `replaceChar`. -/
def pyReplaceChar (s : String) (old : Char) (new : String) : String :=
  String.mk (replaceChar old new.toList s.toList)

/-- Parse a run of decimal digits; `none` unless the list is non-empty and
all digits.  Models `int(s)` on the numeric fields of a date string. -/
def digitsToNat : List Char → Option Nat
  | [] => none
  | l => if l.all Char.isDigit
         then some (l.foldl (fun acc c => acc * 10 + (c.toNat - '0'.toNat)) 0)
         else none

/-- `digitsToNat` on a `String`. -/
def strToNat (s : String) : Option Nat := digitsToNat s.toList

/-! ## UTF-8 decoding with replacement

Model of Python `bytes.decode("utf-8", errors="replace")`: a total
decoder that turns every invalid byte into U+FFFD instead of failing.
Continuation-byte range checks (including the special second-byte ranges
after `E0`, `ED`, `F0`, `F4`) follow the UTF-8 definition, so every
decoded scalar value is valid.
-/

/-- Is `b` a UTF-8 continuation byte within `[lo, hi]`? -/
def contIn (lo hi b : Nat) : Bool := lo ≤ b && b ≤ hi

/-- Decode a UTF-8 byte list, emitting U+FFFD for each invalid byte.
Structural recursion on a fuel argument (one unit per consumed byte, so
any fuel of at least the list length is enough) keeps the definition
kernel-reducible. -/
def utf8DecodeAux : Nat → List Nat → List Char
  | 0, _ => []
  | _ + 1, [] => []
  | fuel + 1, b :: bs =>
    if b ≤ 0x7F then Char.ofNat b :: utf8DecodeAux fuel bs
    else if 0xC2 ≤ b && b ≤ 0xDF then
      match bs with
      | b2 :: bs2 =>
        if contIn 0x80 0xBF b2 then
          Char.ofNat ((b - 0xC0) * 64 + (b2 - 0x80)) :: utf8DecodeAux fuel bs2
        else '�' :: utf8DecodeAux fuel (b2 :: bs2)
      | [] => ['�']
    else if 0xE0 ≤ b && b ≤ 0xEF then
      match bs with
      | b2 :: bs2 =>
        if contIn (if b = 0xE0 then 0xA0 else 0x80) (if b = 0xED then 0x9F else 0xBF) b2 then
          match bs2 with
          | b3 :: bs3 =>
            if contIn 0x80 0xBF b3 then
              Char.ofNat ((b - 0xE0) * 4096 + (b2 - 0x80) * 64 + (b3 - 0x80))
                :: utf8DecodeAux fuel bs3
            else '�' :: utf8DecodeAux fuel (b2 :: b3 :: bs3)
          | [] => ['�']
        else '�' :: utf8DecodeAux fuel (b2 :: bs2)
      | [] => ['�']
    else if 0xF0 ≤ b && b ≤ 0xF4 then
      match bs with
      | b2 :: bs2 =>
        if contIn (if b = 0xF0 then 0x90 else 0x80) (if b = 0xF4 then 0x8F else 0xBF) b2 then
          match bs2 with
          | b3 :: bs3 =>
            if contIn 0x80 0xBF b3 then
              match bs3 with
              | b4 :: bs4 =>
                if contIn 0x80 0xBF b4 then
                  Char.ofNat ((b - 0xF0) * 262144 + (b2 - 0x80) * 4096
                      + (b3 - 0x80) * 64 + (b4 - 0x80))
                    :: utf8DecodeAux fuel bs4
                else '�' :: utf8DecodeAux fuel (b2 :: b3 :: b4 :: bs4)
              | [] => ['�']
            else '�' :: utf8DecodeAux fuel (b2 :: b3 :: bs3)
          | [] => ['�']
        else '�' :: utf8DecodeAux fuel (b2 :: bs2)
      | [] => ['�']
    else '�' :: utf8DecodeAux fuel bs

/-- Decode a UTF-8 byte list with replacement. -/
def utf8DecodeReplaceL (l : List Nat) : List Char :=
  utf8DecodeAux l.length l

/-- `utf8DecodeReplaceL` packaged as a `String`. -/
def utf8DecodeReplace (bs : List Nat) : String :=
  String.mk (utf8DecodeReplaceL bs)

/-! ## Header data and lookups

`dict(msg.items())` turns the parsed header sequence into a plain Python
dict: lookups are exact-case, absent keys default to the empty string via
`.get(k, "")`, and when a header name repeats the last occurrence wins
(dict construction overwrites earlier keys).
-/

/-- A header mapping: association list in file order, last occurrence wins. -/
abbrev Headers := List (String × String)

/-- Model of `dict(items).get(k)`: last binding of `k`, if any. -/
def hget (hs : Headers) (k : String) : Option String :=
  (hs.reverse.find? (fun p => p.1 = k)).map (·.2)

/-- Model of `dict(items).get(k, "")`. -/
def hgetD (hs : Headers) (k : String) : String := (hget hs k).getD ""

/-! ## RFC-2047 header decoding (`_decode`)

The importer calls `email.header.decode_header` and joins the pieces.
The model covers the fragment exercised by the importer and the theorems:
a value that is exactly one Q-encoded word `=?utf-8?q?...?=` is decoded
(quoted-printable: `_` is a space, `=XX` a hex byte, other characters are
their own byte, the byte sequence then read as UTF-8 with replacement);
any other value is returned unchanged, as `decode_header` does for plain
ASCII header values.  Base64 words, non-UTF-8 charsets and encoded words
embedded inside longer values are outside the modelled fragment.
-/

/-- Value of one hexadecimal digit, 0 when the character is not one. -/
def hexDigitVal (c : Char) : Nat :=
  if '0' ≤ c && c ≤ '9' then c.toNat - '0'.toNat
  else if 'a' ≤ c && c ≤ 'f' then c.toNat - 'a'.toNat + 10
  else if 'A' ≤ c && c ≤ 'F' then c.toNat - 'A'.toNat + 10
  else 0

/-- Is the character a hexadecimal digit? -/
def isHexDigit (c : Char) : Bool :=
  ('0' ≤ c && c ≤ '9') || ('a' ≤ c && c ≤ 'f') || ('A' ≤ c && c ≤ 'F')

/-- RFC-2047 Q-encoding to bytes: `_` is a space, `=XX` a hex-coded byte,
anything else its own code point (header text is ASCII on the wire). -/
def qDecodeBytes : List Char → List Nat
  | [] => []
  | '_' :: rest => 0x20 :: qDecodeBytes rest
  | '=' :: h1 :: h2 :: rest =>
    if isHexDigit h1 && isHexDigit h2
    then (hexDigitVal h1 * 16 + hexDigitVal h2) :: qDecodeBytes rest
    else '='.toNat :: qDecodeBytes (h1 :: h2 :: rest)
  | c :: rest => c.toNat :: qDecodeBytes rest

/-- Model of `_decode` (importer.py line 46): RFC-2047 decoding of a header
value, for the fragment described above. -/
def _decode (text : String) : String :=
  let cs := text.toList
  if leadsWith cs ['=', '?'] && leadsWith cs.reverse ['=', '?'] then
    let inner := (cs.drop 2).reverse.drop 2 |>.reverse
    match splitCharsOn '?' inner with
    | [charset, enc, payload] =>
      if pyLower (String.mk charset) = "utf-8" && pyLower (String.mk enc) = "q"
      then utf8DecodeReplace (qDecodeBytes payload)
      else text
    | _ => text
  else text

/-! ## Sender extraction (`email.utils.parseaddr`)

Model for the two shapes the importer feeds it: a bare address
(`"a@b"`, returning `("", strip(s))`) and a display-name form
(`"Name <a@b>"`, returning `(strip(name), addr)`).  Quoted display
names, comments and unbalanced angle brackets are outside the modelled
fragment; an angle bracket with no closing bracket yields `("", "")`.
-/

/-- Split a list at the first occurrence of `c`, dropping `c` itself. -/
def splitAtFirst (c : Char) : List Char → Option (List Char × List Char)
  | [] => none
  | x :: rest =>
    if x = c then some ([], rest)
    else (splitAtFirst c rest).map (fun p => (x :: p.1, p.2))

/-- Model of `email.utils.parseaddr`, returning `(real_name, address)`. -/
def parseaddr (s : String) : String × String :=
  match splitAtFirst '<' s.toList with
  | none => ("", pyStrip s)
  | some (before, rest) =>
    match splitAtFirst '>' rest with
    | none => ("", "")
    | some (addr, _) => (pyStrip (String.mk before), String.mk addr)

/-! ## Spam / noise filter (`_is_spam`) -/

/-- Model of the compiled pattern `_SPAM_ADDR` (importer.py line 28),
`re.compile(r"(mailer-daemon@|postmaster@|no[-_]reply@)", re.I)`, applied
with `.search`: the lowered string contains one of the four literal
alternatives anywhere. -/
def spamAddrSearch (s : String) : Bool :=
  let t := pyLower s
  strContains t "mailer-daemon@" || strContains t "postmaster@" ||
    strContains t "no-reply@" || strContains t "no_reply@"

/-- Noise rules 1 to 4 of `_is_spam` (labels, precedence, auto-submission,
auto-response suppression), importer.py lines 57 to 65. -/
def matchesRules14 (headers : Headers) : Bool :=
  (pySplit ',' (hgetD headers "X-Gmail-Labels")).any
      (fun l => pyLower (pyStrip l) = "spam" || pyLower (pyStrip l) = "trash")
  || (pyLower (hgetD headers "Precedence") = "bulk"
      || pyLower (hgetD headers "Precedence") = "junk"
      || pyLower (hgetD headers "Precedence") = "list")
  || (¬ (pyLower (hgetD headers "Auto-Submitted") = ""
      || pyLower (hgetD headers "Auto-Submitted") = "no"))
  || strContains (pyLower (hgetD headers "X-Auto-Response-Suppress")) "all"

/-- Model of `_is_spam` (importer.py lines 55 to 67): rules 1 to 4, then
the `_SPAM_ADDR` search over the address extracted from `From`. -/
def _is_spam (headers : Headers) : Bool :=
  if matchesRules14 headers then true
  else spamAddrSearch (parseaddr (hgetD headers "From")).2

/-- The predicate the spec states for rule 5: the extracted address
STARTS with one of the administrative patterns (claim C6 wording),
written from the words of the spec for comparison with the code. -/
def specSpamAddrStarts (s : String) : Bool :=
  let t := (pyLower s).toList
  leadsWith t "mailer-daemon@".toList || leadsWith t "postmaster@".toList ||
    leadsWith t "no-reply@".toList || leadsWith t "no_reply@".toList

/-! ## Dates (`email.utils.parsedate_to_datetime`)

`parsedate_to_datetime` raises `ValueError` on a missing or unparsable
Date header; the model returns `none` there.  The modelled input fragment
is the classic RFC-2822 shape used by the mail the importer reads: an optional
weekday token ending in a comma, then `day month 4-digit-year`, a
`HH:MM[:SS]` time and a numeric `±HHMM` zone.  Out-of-range field values
are rejected exactly where the `datetime` constructor would raise.
A parsed date is represented by its calendar fields plus the zone offset
in minutes; comparisons between aware datetimes compare the instant, so
the embedded sort key is the epoch-second value `toEpoch`.
-/

/-- A parsed, timezone-aware datetime. -/
structure PDate where
  year : Nat
  month : Nat
  day : Nat
  hour : Nat
  minute : Nat
  second : Nat
  tzMin : Int
deriving Repr, DecidableEq

/-- Gregorian leap year. -/
def isLeap (y : Nat) : Bool := (y % 4 = 0 && y % 100 ≠ 0) || y % 400 = 0

/-- Number of days in a month, used for `datetime` range validation. -/
def daysInMonth (y m : Nat) : Nat :=
  if m = 2 then (if isLeap y then 29 else 28)
  else if m = 4 || m = 6 || m = 9 || m = 11 then 30 else 31

/-- Days since 1970-01-01 of a Gregorian civil date (floor-division form
of the standard civil-from-days inverse). -/
def daysFromCivil (y m d : Nat) : Int :=
  let y2 : Int := if m ≤ 2 then (y : Int) - 1 else (y : Int)
  let era : Int := y2 / 400
  let yoe : Int := y2 - era * 400
  let mp : Int := ((m : Int) + 9) % 12
  let doy : Int := (153 * mp + 2) / 5 + (d : Int) - 1
  let doe : Int := yoe * 365 + yoe / 4 - yoe / 100 + doy
  era * 146097 + doe - 719468

/-- The instant of an aware datetime, in seconds since the epoch.
Two aware `datetime` values compare exactly as these values do. -/
def toEpoch (d : PDate) : Int :=
  daysFromCivil d.year d.month d.day * 86400
    + (d.hour : Int) * 3600 + (d.minute : Int) * 60 + (d.second : Int)
    - d.tzMin * 60

/-- Month names accepted by `parsedate_tz` (short and full forms). -/
def monthNames : List (String × Nat) :=
  [("jan", 1), ("feb", 2), ("mar", 3), ("apr", 4), ("may", 5), ("jun", 6),
   ("jul", 7), ("aug", 8), ("sep", 9), ("oct", 10), ("nov", 11), ("dec", 12),
   ("january", 1), ("february", 2), ("march", 3), ("april", 4),
   ("june", 6), ("july", 7), ("august", 8), ("september", 9),
   ("october", 10), ("november", 11), ("december", 12)]

/-- Look a month token up, case-insensitively. -/
def monthFromName (s : String) : Option Nat :=
  (monthNames.find? (fun p => p.1 = pyLower s)).map (·.2)

/-- Parse a numeric `±HHMM` zone into an offset in minutes. -/
def parseZone (s : String) : Option Int :=
  match s.toList with
  | [sign, h1, h2, m1, m2] =>
    if (sign = '+' || sign = '-') && [h1, h2, m1, m2].all Char.isDigit then
      let hh := (h1.toNat - 48) * 10 + (h2.toNat - 48)
      let mm := (m1.toNat - 48) * 10 + (m2.toNat - 48)
      let v : Int := (hh : Int) * 60 + (mm : Int)
      some (if sign = '-' then -v else v)
    else none
  | _ => none

/-- Parse an `HH:MM[:SS]` time token. -/
def parseTime (s : String) : Option (Nat × Nat × Nat) :=
  match pySplit ':' s with
  | [hS, miS, seS] => do
    let h ← strToNat hS
    let mi ← strToNat miS
    let se ← strToNat seS
    pure (h, mi, se)
  | [hS, miS] => do
    let h ← strToNat hS
    let mi ← strToNat miS
    pure (h, mi, 0)
  | _ => none

/-- Model of `email.utils.parsedate_to_datetime` on the fragment described
above; `none` models the `ValueError` the real function raises. -/
def parsedate (s : String) : Option PDate :=
  let tokens := (pySplit ' ' s).filter (fun t => ¬ t = "")
  let tokens := match tokens with
    | t :: rest => if leadsWith t.toList.reverse [','] then rest else t :: rest
    | [] => []
  match tokens with
  | [dayS, monS, yearS, timeS, zoneS] => do
    let day ← strToNat dayS
    let mon ← monthFromName monS
    let year ← strToNat yearS
    let t ← parseTime timeS
    let tz ← parseZone zoneS
    if yearS.toList.length = 4 && 1 ≤ day && day ≤ daysInMonth year mon
        && t.1 ≤ 23 && t.2.1 ≤ 59 && t.2.2 ≤ 59
    then some ⟨year, mon, day, t.1, t.2.1, t.2.2, tz⟩ else none
  | _ => none

/-- Zero-padded two-digit rendering. -/
def pad2 (n : Nat) : String := if n ≤ 9 then "0" ++ toString n else toString n

/-- Zero-padded four-digit rendering. -/
def pad4 (n : Nat) : String :=
  if n ≤ 9 then "000" ++ toString n
  else if n ≤ 99 then "00" ++ toString n
  else if n ≤ 999 then "0" ++ toString n
  else toString n

/-- Zone suffix of `datetime.isoformat` for an aware value: `±HH:MM`. -/
def tzSuffix (tz : Int) : String :=
  let sign := if tz < 0 then "-" else "+"
  let a := tz.natAbs
  sign ++ pad2 (a / 60) ++ ":" ++ pad2 (a % 60)

/-- Model of `dt.isoformat(" ", "seconds")` on an aware datetime. -/
def isoformatSS (d : PDate) : String :=
  pad4 d.year ++ "-" ++ pad2 d.month ++ "-" ++ pad2 d.day ++ " "
    ++ pad2 d.hour ++ ":" ++ pad2 d.minute ++ ":" ++ pad2 d.second
    ++ tzSuffix d.tzMin

/-- Model of `dt.date().isoformat()`. -/
def dateIso (d : PDate) : String :=
  pad4 d.year ++ "-" ++ pad2 d.month ++ "-" ++ pad2 d.day

/-! ## Rendering one message (`_html_block`) -/

/-- Model of Python `html.escape(s)` (quote mode on, the default). -/
def htmlEscape (s : String) : String :=
  let r1 := pyReplaceChar s '&' "&amp;"
  let r2 := pyReplaceChar r1 '<' "&lt;"
  let r3 := pyReplaceChar r2 '>' "&gt;"
  let r4 := pyReplaceChar r3 '"' "&quot;"
  pyReplaceChar r4 (Char.ofNat 39) "&#x27;"

/-- Model of `_HTML_RE.search` with `_HTML_RE = <[a-z][\s\S]*>` under
`re.I`: some `<` is followed directly by an ASCII letter with a `>`
somewhere later. -/
def htmlTagSearch : List Char → Bool
  | [] => false
  | '<' :: rest =>
    (match rest with
     | c :: rest2 => (c.isAlpha && rest2.contains '>') || htmlTagSearch rest
     | [] => false)
  | _ :: rest => htmlTagSearch rest

/-- Exceptions the embedded importer fragment can raise. -/
inductive PyErr
  | dateParse
  | indexError
deriving Repr, DecidableEq

/-- The pure part of `_html_block`, given the already-parsed Date. -/
def renderBlock (d : PDate) (headers : Headers) (body : String) : String :=
  let ts := isoformatSS d
  let sender := pyStrip (_decode (hgetD headers "From"))
  let head := "<strong>" ++ htmlEscape ts
    ++ (if sender = "" then "" else " " ++ htmlEscape sender) ++ "</strong>"
  if htmlTagSearch body.toList then "<p>" ++ head ++ "</p>" ++ body
  else "<p>" ++ head ++ "<br>" ++ pyReplaceChar (htmlEscape body) '\n' "<br>" ++ "</p>"

/-- Model of `_html_block` (importer.py lines 108 to 119); the `.error`
case models the `ValueError` escaping from `parsedate_to_datetime`. -/
def _html_block (headers : Headers) (body : String) : Except PyErr String :=
  match parsedate (hgetD headers "Date") with
  | none => .error .dateParse
  | some d => .ok (renderBlock d headers body)

/-! ## Ticket construction (`build_thread_ticket`) -/

/-- Model of `TicketPayload` (importer.py lines 33 to 43) with the same
field defaults.  `custom_fields` is an association list. -/
structure TicketPayload where
  email : Option String := none
  name : Option String := none
  subject : String
  description : String
  status : Nat := 5
  priority : Nat := 1
  tags : List String := []
  group_id : Option Int := none
  custom_fields : List (String × String) := []
deriving Repr, DecidableEq

/-- Default of `ImporterSettings.original_date_field` (settings.py). -/
def original_date_field : String := "cf_original_date"

/-- One message as the importer passes it around: header dict plus body. -/
abbrev Msg := Headers × String

/-- The sort key of `messages.sort(key=...)`: the parsed Date, compared
as an instant.  `CPython` computes every key before comparing, so a
single unparsable date makes the whole `sort` call raise; the `.error`
case models that. -/
def parseDateKeyed (m : Msg) : Except PyErr (Int × Msg) :=
  match parsedate (hgetD m.1 "Date") with
  | none => .error .dateParse
  | some d => .ok (toEpoch d, m)

/-- Key order used by the sort. -/
def keyLE (a b : Int × Msg) : Prop := a.1 ≤ b.1

instance : DecidableRel keyLE := fun a b => inferInstanceAs (Decidable (a.1 ≤ b.1))

/-- Stable ascending sort by the precomputed key, the behaviour of
Python `list.sort(key=...)` (stable sorts by one key agree on all
inputs, so insertion sort is an exact model). -/
def sortKeyed (l : List (Int × Msg)) : List (Int × Msg) :=
  List.insertionSort keyLE l

/-- Map a fallible function over a list, stopping at the first raised
exception: the semantics of a Python loop or comprehension over a
raising function. -/
def mapExcept {α β : Type} (f : α → Except PyErr β) : List α → Except PyErr (List β)
  | [] => .ok []
  | x :: xs =>
    match f x with
    | .error e => .error e
    | .ok y =>
      match mapExcept f xs with
      | .error e => .error e
      | .ok ys => .ok (y :: ys)

/-- Model of `build_thread_ticket` (importer.py lines 122 to 137).
The in-place `messages.sort(...)` mutation is modelled by returning the
sorted list next to the payload: the second component of the pair is the
state of the caller list after the call. -/
def build_thread_ticket (messages : List Msg) (group_id : Int) :
    Except PyErr (TicketPayload × List Msg) :=
  match mapExcept parseDateKeyed messages with
  | .error e => .error e
  | .ok keyed =>
    match (sortKeyed keyed).map (·.2) with
    | [] => .error .indexError
    | first :: rest =>
      match mapExcept (fun m => _html_block m.1 m.2) (first :: rest) with
      | .error e => .error e
      | .ok blocks =>
        match parsedate (hgetD first.1 "Date") with
        | none => .error .dateParse
        | some sent_at =>
          .ok ({
            email := if (parseaddr (hgetD first.1 "From")).2 = "" then none
                     else some (parseaddr (hgetD first.1 "From")).2,
            name := if pyStrip (_decode (parseaddr (hgetD first.1 "From")).1) = ""
                    then none
                    else some (pyStrip (_decode (parseaddr (hgetD first.1 "From")).1)),
            subject := if _decode (hgetD first.1 "Subject") = "" then "(no subject)"
                       else _decode (hgetD first.1 "Subject"),
            description := String.intercalate "<hr>" blocks,
            group_id := some group_id,
            tags := ["imported"],
            custom_fields := [(original_date_field, dateIso sent_at)] },
          first :: rest)

/-! ## The pusher (`push`) and its retry policy

`push` posts the ticket and calls `raise_for_status()`, decorated with
tenacity `retry(wait=wait_exponential(min=1, max=60),
stop=stop_after_attempt(5), retry=retry_if_exception_type(httpx.HTTPError),
reraise=True)`.  One attempt is modelled as an `Except`: `.ok` for a 2xx
response, `.error .transportErr` for timeouts / connection failures
(`httpx.TransportError`), `.error (.statusErr c)` for the
`httpx.HTTPStatusError` that `raise_for_status()` raises on a non-2xx
status `c`.  Both error classes derive from `httpx.HTTPError`, which is
what the retry predicate tests.  The remote behaviour is a function from
the attempt number (1-based) to the outcome of that attempt.
-/

/-- Outcome classification of one `httpx.post(...).raise_for_status()` call. -/
inductive PushErr
  | transportErr
  | statusErr (code : Nat)
deriving Repr, DecidableEq

/-- Model of `retry_if_exception_type(httpx.HTTPError)`: every modelled
exception is an `httpx.HTTPError` subclass, so the predicate holds for
both variants. -/
def retryOnHTTPError : PushErr → Bool
  | .transportErr => true
  | .statusErr _ => true

/-- Model of tenacity `wait_exponential(min=1, max=60)` with the default
multiplier after the `n`-th failed attempt:
`max(min_, min(2^(n-1), max_))`. -/
def waitExponential (n : Nat) : Nat :=
  max 1 (min (2 ^ (n - 1)) 60)

instance exceptDecEq {ε α : Type} [DecidableEq ε] [DecidableEq α] :
    DecidableEq (Except ε α)
  | .ok a, .ok b =>
    if h : a = b then .isTrue (by simp [h]) else .isFalse (by simp [h])
  | .ok _, .error _ => .isFalse (by simp)
  | .error _, .ok _ => .isFalse (by simp)
  | .error e, .error f =>
    if h : e = f then .isTrue (by simp [h]) else .isFalse (by simp [h])

/-- What one run of the decorated `push` did: the final result, the number
of remote calls issued, and the back-off waits slept between attempts. -/
structure RetryOutcome where
  result : Except PushErr Unit
  calls : Nat
  waits : List Nat
deriving Repr, DecidableEq

/-- The tenacity loop: attempt `k` with `fuel` attempts still allowed.
After a failure the loop retries only when the exception matches the
retry predicate and attempts remain (`stop_after_attempt(5)` checked
after the attempt); otherwise `reraise=True` re-raises the last error. -/
def runRetry (call : Nat → Except PushErr Unit) : Nat → Nat → RetryOutcome
  | _, 0 => ⟨.error .transportErr, 0, []⟩
  | k, fuel + 1 =>
    match call k with
    | .ok () => ⟨.ok (), 1, []⟩
    | .error e =>
      if retryOnHTTPError e && 0 < fuel then
        let rest := runRetry call (k + 1) fuel
        ⟨rest.result, rest.calls + 1, waitExponential k :: rest.waits⟩
      else ⟨.error e, 1, []⟩

/-- Model of the decorated `push` (importer.py lines 140 to 149), applied
to a remote behaviour: at most 5 attempts. -/
def push (call : Nat → Except PushErr Unit) : RetryOutcome :=
  runRetry call 1 5

/-! ## Wire serialization (`model_dump(exclude_none=True)`) -/

/-- JSON-ish values appearing in the ticket wire payload. -/
inductive JVal
  | s (v : String)
  | n (v : Int)
  | arr (v : List String)
  | obj (v : List (String × String))
deriving Repr, DecidableEq

/-- Model of `ticket.model_dump(exclude_none=True)` as used in `push`:
fields in declaration order, each `None`-valued optional field omitted
entirely. -/
def modelDumpExcludeNone (t : TicketPayload) : List (String × JVal) :=
  (match t.email with | some e => [("email", JVal.s e)] | none => [])
  ++ (match t.name with | some n => [("name", JVal.s n)] | none => [])
  ++ [("subject", JVal.s t.subject), ("description", JVal.s t.description),
      ("status", JVal.n t.status), ("priority", JVal.n t.priority),
      ("tags", JVal.arr t.tags)]
  ++ (match t.group_id with | some g => [("group_id", JVal.n g)] | none => [])
  ++ [("custom_fields", JVal.obj t.custom_fields)]

/-! ## Message source (`iter_messages`)

`mailbox.mbox` parsing itself is out of scope (file format and IO); an
archive is a list of already-split raw messages, each carrying its header
items in file order and its `get_payload(decode=True)` result: `some`
raw bytes, or `none` (a multipart entry), which `str(payload or "")`
turns into the empty string.
-/

/-- One raw archive entry. -/
structure MboxMsg where
  headers : Headers
  payload : Option (List Nat)
deriving Repr, DecidableEq

/-- Body text of one entry: bytes decoded as UTF-8 with replacement. -/
def decodeBody (p : Option (List Nat)) : String :=
  match p with
  | some bs => utf8DecodeReplace bs
  | none => ""

/-- Model of `iter_messages` (importer.py lines 70 to 78): header dict
passed through as-is, body decoded, whitespace-only bodies skipped. -/
def iter_messages (msgs : List MboxMsg) : List Msg :=
  msgs.filterMap fun m =>
    let body := decodeBody m.payload
    if pyStrip body = "" then none else some (m.headers, body)

/-! ## The sync driver (`sync`)

The SQLite progress table is a set of thread-id strings, modelled as a
list without duplicates in insertion order: `SELECT 1 ... WHERE
thread_id = ?` is membership, `INSERT OR IGNORE` is append-if-absent,
`DROP TABLE` on purge is the empty list, `unlink` of the database file is
the `storeDeleted` flag.  Preflight (`ensure_custom_field`,
`ensure_import_group`) succeeds by assumption and its group id is a
parameter.  The outcome of the `n`-th `push` call (0-based, after the
retries internal to `push`) is a behaviour parameter; a `.error` there
models the `httpx` exception propagating out of `push`, which nothing in
`sync` catches, so the process dies with a traceback (exit code 1) and
the rows committed so far survive.  `time.sleep` and the progress bar
have no observable state and are dropped.
-/

/-- Model of the thread id of line 180:
`str(headers.get("X-GM-THRID") or headers.get("Message-ID") or id(headers))`.
An absent or empty header is falsy either way; `uniq` stands for the
per-message-unique `id(headers)` token. -/
def threadKey (h : Headers) (uniq : String) : String :=
  let t := hgetD h "X-GM-THRID"
  if ¬ t = "" then t
  else
    let m := hgetD h "Message-ID"
    if ¬ m = "" then m else uniq

/-- The collection loop of `sync` (lines 176 to 184): walk the decoded
archive, drop noise, compute the thread id, and drop ids already in the
store.  No insert happens here, so the store is constant throughout. -/
def collectItems (store : List String) (msgs : List Msg) :
    List (String × Msg) :=
  msgs.enum.filterMap fun (i, m) =>
    if _is_spam m.1 then none
    else
      let tid := threadKey m.1 ("pyid" ++ toString i)
      if store.contains tid then none else some (tid, m)

/-- The import loop of `sync` (lines 192 to 198): for each item build the
one-message ticket, push it, and on success insert-or-ignore its id and
commit.  Returns the successful pushes in order, the final store, and the
first uncaught exception if one occurred. -/
def importLoop (group_id : Int) (pushRes : Nat → Except PushErr Unit) :
    List (String × Msg) → Nat → List String →
    List (String × TicketPayload) × List String × Option (Except PyErr PushErr)
  | [], _, store => ([], store, none)
  | (tid, m) :: rest, n, store =>
    match build_thread_ticket [m] group_id with
    | .error e => ([], store, some (.error e))
    | .ok (t, _) =>
      match pushRes n with
      | .error e => ([], store, some (.ok e))
      | .ok () =>
        let store2 := if store.contains tid then store else store ++ [tid]
        let out := importLoop group_id pushRes rest (n + 1) store2
        ((tid, t) :: out.1, out.2.1, out.2.2)

/-- Observable outcome of one run of `sync`. -/
structure SyncOutcome where
  pushes : List (String × TicketPayload)
  store : List String
  storeDeleted : Bool
  exitCode : Nat
  nothingNew : Bool
deriving Repr, DecidableEq

/-- Model of `sync` (importer.py lines 168 to 205) for a run without a
keyboard interrupt: purge decision, store open, collection, the
nothing-new early return, the import loop, and on clean completion the
`unlink` of the store file. -/
def sync (purge : Bool) (store0 : List String) (mbox : List MboxMsg)
    (group_id : Int) (pushRes : Nat → Except PushErr Unit) : SyncOutcome :=
  let store1 := if purge then [] else store0
  let items := collectItems store1 (iter_messages mbox)
  if items.isEmpty then
    { pushes := [], store := store1, storeDeleted := false,
      exitCode := 0, nothingNew := true }
  else
    match importLoop group_id pushRes items 0 store1 with
    | (ps, st, none) =>
      { pushes := ps, store := st, storeDeleted := true,
        exitCode := 0, nothingNew := false }
    | (ps, st, some _) =>
      { pushes := ps, store := st, storeDeleted := false,
        exitCode := 1, nothingNew := false }

/-! ## Shared concrete data and small lemmas -/

/-- ASCII text as its byte list (used to build concrete archive entries). -/
def asciiBytes (s : String) : List Nat := s.toList.map Char.toNat

/-- A push behaviour in which every remote call succeeds. -/
def okPush : Nat → Except PushErr Unit := fun _ => Except.ok ()

/-- One retry-loop step that fails and retries: an attempt raising an
`httpx.HTTPError` with attempts remaining sleeps the back-off and loops. -/
theorem runRetry_error_step (call : Nat → Except PushErr Unit) (k fuel : Nat)
    (e : PushErr) (hk : call k = Except.error e) (hf : 0 < fuel) :
    runRetry call k (fuel + 1) =
      ⟨(runRetry call (k + 1) fuel).result,
       (runRetry call (k + 1) fuel).calls + 1,
       waitExponential k :: (runRetry call (k + 1) fuel).waits⟩ := by
  rw [runRetry, hk]
  cases e <;> simp [retryOnHTTPError, hf]

/-- The last allowed attempt failing re-raises (`reraise=True`). -/
theorem runRetry_error_last (call : Nat → Except PushErr Unit) (k : Nat)
    (e : PushErr) (hk : call k = Except.error e) :
    runRetry call k 1 = ⟨Except.error e, 1, []⟩ := by
  rw [runRetry, hk]
  cases e <;> simp [retryOnHTTPError]

/-- A successful attempt returns at once. -/
theorem runRetry_ok (call : Nat → Except PushErr Unit) (k fuel : Nat)
    (hk : call k = Except.ok ()) :
    runRetry call k (fuel + 1) = ⟨Except.ok (), 1, []⟩ := by
  rw [runRetry, hk]

/-- C3, counterexample to the claim as stated: with the remote returning
status 400 on every attempt (a fatal, non-rate-limit 4xx), `push` issues
5 remote calls, not 1: `retry_if_exception_type(httpx.HTTPError)` also
matches `httpx.HTTPStatusError`, so the error is retried rather than
propagating after the first attempt. -/
theorem push_fatal_400_five_calls_not_one :
    (push (fun _ => Except.error (PushErr.statusErr 400))).calls = 5
    ∧ ¬ (push (fun _ => Except.error (PushErr.statusErr 400))).calls = 1 := by
  constructor
  · rfl
  · decide

/-- C3 as amended: a `FatalAPIError`-class failure (any 4xx status `c`,
rate-limit or not) is retried exactly like a transient one: with every
attempt failing with status `c`, `push` issues 5 remote calls, sleeping
the exponential back-off waits 1, 2, 4, 8 between them, and only then
re-raises the last error to the caller. -/
theorem push_retries_fatal_status (c : Nat) (call : Nat → Except PushErr Unit)
    (hc : ∀ k, 1 ≤ k → k ≤ 5 → call k = Except.error (PushErr.statusErr c)) :
    push call = ⟨Except.error (PushErr.statusErr c), 5, [1, 2, 4, 8]⟩ := by
  have s5 : runRetry call 5 1 = ⟨Except.error (PushErr.statusErr c), 1, []⟩ :=
    runRetry_error_last call 5 _ (hc 5 (by omega) (by omega))
  have s4 : runRetry call 4 2 =
      ⟨Except.error (PushErr.statusErr c), 2, [waitExponential 4]⟩ := by
    rw [show (2 : Nat) = 1 + 1 from rfl,
      runRetry_error_step call 4 1 _ (hc 4 (by omega) (by omega)) (by omega), s5]
  have s3 : runRetry call 3 3 =
      ⟨Except.error (PushErr.statusErr c), 3,
        [waitExponential 3, waitExponential 4]⟩ := by
    rw [show (3 : Nat) = 2 + 1 from rfl,
      runRetry_error_step call 3 2 _ (hc 3 (by omega) (by omega)) (by omega), s4]
  have s2 : runRetry call 2 4 =
      ⟨Except.error (PushErr.statusErr c), 4,
        [waitExponential 2, waitExponential 3, waitExponential 4]⟩ := by
    rw [show (4 : Nat) = 3 + 1 from rfl,
      runRetry_error_step call 2 3 _ (hc 2 (by omega) (by omega)) (by omega), s3]
  have s1 : runRetry call 1 5 =
      ⟨Except.error (PushErr.statusErr c), 5,
        [waitExponential 1, waitExponential 2, waitExponential 3,
         waitExponential 4]⟩ := by
    rw [show (5 : Nat) = 4 + 1 from rfl,
      runRetry_error_step call 1 4 _ (hc 1 (by omega) (by omega)) (by omega), s2]
  rw [push, s1]
  rfl

/-- Witness for `push_retries_fatal_status` at the constant-400 behaviour. -/
theorem push_retries_fatal_status_witness :
    push (fun _ => Except.error (PushErr.statusErr 400)) =
      ⟨Except.error (PushErr.statusErr 400), 5, [1, 2, 4, 8]⟩ :=
  push_retries_fatal_status 400 _ (fun _ _ _ => rfl)

/-- C4: a behaviour failing transiently on attempts 1 to 4 and succeeding
on the 5th makes `push` succeed with exactly 5 remote calls; a behaviour
failing transiently on all 5 attempts makes `push` re-raise the last
error after exactly 5 calls (no 6th is issued: the loop only ever
examines attempts 1 to 5); and the back-off is exponential within the
1-second floor and 60-second cap: every wait lies in `[1, 60]` and each
successive wait is the double of the previous one, saturating at 60. -/
theorem push_transient_retry_policy (call4 call5 : Nat → Except PushErr Unit)
    (h4 : ∀ k, 1 ≤ k → k ≤ 4 → call4 k = Except.error PushErr.transportErr)
    (h4ok : call4 5 = Except.ok ())
    (h5 : ∀ k, 1 ≤ k → k ≤ 5 → call5 k = Except.error PushErr.transportErr) :
    push call4 = ⟨Except.ok (), 5, [1, 2, 4, 8]⟩
    ∧ push call5 = ⟨Except.error PushErr.transportErr, 5, [1, 2, 4, 8]⟩
    ∧ (∀ n, 1 ≤ waitExponential n ∧ waitExponential n ≤ 60)
    ∧ (∀ n, 1 ≤ n → waitExponential (n + 1) = min (2 * waitExponential n) 60) := by
  refine ⟨?_, ?_, ?_, ?_⟩
  · have s5 : runRetry call4 5 1 = ⟨Except.ok (), 1, []⟩ :=
      runRetry_ok call4 5 0 h4ok
    have s4 : runRetry call4 4 2 = ⟨Except.ok (), 2, [waitExponential 4]⟩ := by
      rw [show (2 : Nat) = 1 + 1 from rfl,
        runRetry_error_step call4 4 1 _ (h4 4 (by omega) (by omega)) (by omega), s5]
    have s3 : runRetry call4 3 3 =
        ⟨Except.ok (), 3, [waitExponential 3, waitExponential 4]⟩ := by
      rw [show (3 : Nat) = 2 + 1 from rfl,
        runRetry_error_step call4 3 2 _ (h4 3 (by omega) (by omega)) (by omega), s4]
    have s2 : runRetry call4 2 4 =
        ⟨Except.ok (), 4,
          [waitExponential 2, waitExponential 3, waitExponential 4]⟩ := by
      rw [show (4 : Nat) = 3 + 1 from rfl,
        runRetry_error_step call4 2 3 _ (h4 2 (by omega) (by omega)) (by omega), s3]
    have s1 : runRetry call4 1 5 =
        ⟨Except.ok (), 5,
          [waitExponential 1, waitExponential 2, waitExponential 3,
           waitExponential 4]⟩ := by
      rw [show (5 : Nat) = 4 + 1 from rfl,
        runRetry_error_step call4 1 4 _ (h4 1 (by omega) (by omega)) (by omega), s2]
    rw [push, s1]
    rfl
  · have s5 : runRetry call5 5 1 = ⟨Except.error PushErr.transportErr, 1, []⟩ :=
      runRetry_error_last call5 5 _ (h5 5 (by omega) (by omega))
    have s4 : runRetry call5 4 2 =
        ⟨Except.error PushErr.transportErr, 2, [waitExponential 4]⟩ := by
      rw [show (2 : Nat) = 1 + 1 from rfl,
        runRetry_error_step call5 4 1 _ (h5 4 (by omega) (by omega)) (by omega), s5]
    have s3 : runRetry call5 3 3 =
        ⟨Except.error PushErr.transportErr, 3,
          [waitExponential 3, waitExponential 4]⟩ := by
      rw [show (3 : Nat) = 2 + 1 from rfl,
        runRetry_error_step call5 3 2 _ (h5 3 (by omega) (by omega)) (by omega), s4]
    have s2 : runRetry call5 2 4 =
        ⟨Except.error PushErr.transportErr, 4,
          [waitExponential 2, waitExponential 3, waitExponential 4]⟩ := by
      rw [show (4 : Nat) = 3 + 1 from rfl,
        runRetry_error_step call5 2 3 _ (h5 2 (by omega) (by omega)) (by omega), s3]
    have s1 : runRetry call5 1 5 =
        ⟨Except.error PushErr.transportErr, 5,
          [waitExponential 1, waitExponential 2, waitExponential 3,
           waitExponential 4]⟩ := by
      rw [show (5 : Nat) = 4 + 1 from rfl,
        runRetry_error_step call5 1 4 _ (h5 1 (by omega) (by omega)) (by omega), s2]
    rw [push, s1]
    rfl
  · intro n
    have ht : 1 ≤ (2 : Nat) ^ (n - 1) := Nat.one_le_two_pow
    unfold waitExponential
    omega
  · intro n hn
    have hs : n - 1 + 1 = n := by omega
    have hp : (2 : Nat) ^ n = 2 * 2 ^ (n - 1) := by
      conv_lhs => rw [← hs]
      rw [pow_succ]
      ring
    have ht : 1 ≤ (2 : Nat) ^ (n - 1) := Nat.one_le_two_pow
    unfold waitExponential
    rw [Nat.add_sub_cancel, hp]
    omega

/-- Witness for `push_transient_retry_policy` at concrete behaviours. -/
theorem push_transient_retry_policy_witness :
    push (fun k => if k ≤ 4 then Except.error PushErr.transportErr else Except.ok ())
        = ⟨Except.ok (), 5, [1, 2, 4, 8]⟩
    ∧ push (fun _ => Except.error PushErr.transportErr)
        = ⟨Except.error PushErr.transportErr, 5, [1, 2, 4, 8]⟩
    ∧ (1 ≤ waitExponential 3 ∧ waitExponential 3 ≤ 60)
    ∧ waitExponential 4 = min (2 * waitExponential 3) 60 := by
  have h := push_transient_retry_policy
    (fun k => if k ≤ 4 then Except.error PushErr.transportErr else Except.ok ())
    (fun _ => Except.error PushErr.transportErr)
    (fun k hk1 hk4 => by simp [hk4])
    (by norm_num)
    (fun k _ _ => rfl)
  exact ⟨h.1, h.2.1, h.2.2.1 3, h.2.2.2 3 (by omega)⟩

/-- If some element of the list makes `f` raise, the mapped loop raises. -/
theorem mapExcept_error_of_mem {α β : Type} (f : α → Except PyErr β) (l : List α)
    (a : α) (ha : a ∈ l) (he : ∀ y, ¬ f a = Except.ok y) :
    ∃ e, mapExcept f l = Except.error e := by
  induction l with
  | nil => cases ha
  | cons x xs ih =>
    rcases List.mem_cons.mp ha with rfl | hmem
    · cases hfa : f a with
      | error e => exact ⟨e, by simp [mapExcept, hfa]⟩
      | ok y => exact absurd hfa (he y)
    · cases hfx : f x with
      | error e => exact ⟨e, by simp [mapExcept, hfx]⟩
      | ok y =>
        obtain ⟨e, hme⟩ := ih hmem
        exact ⟨e, by simp [mapExcept, hfx, hme]⟩

/-- C5, counterexample to the claim as stated: a message whose Date header
is missing makes `_html_block` and `build_thread_ticket` raise the
`ValueError` of `parsedate_to_datetime` instead of recovering with an
epoch fallback. -/
theorem no_date_fallback_counterexample :
    _html_block [("From", "x@y.z")] "hi" = Except.error PyErr.dateParse
    ∧ build_thread_ticket [([("From", "x@y.z")], "hi")] 3
        = Except.error PyErr.dateParse :=
  ⟨rfl, rfl⟩

/-- C5 as amended: there is no fallback date anywhere: a message whose Date
header is missing or unparsable makes `_html_block` raise, and makes
`build_thread_ticket` raise for every message list containing it (the
sort key is computed for every element), aborting the run. -/
theorem no_date_parse_raises (m : Msg) (hd : parsedate (hgetD m.1 "Date") = none)
    (msgs : List Msg) (g : Int) (hm : m ∈ msgs) :
    _html_block m.1 m.2 = Except.error PyErr.dateParse
    ∧ ∃ e, build_thread_ticket msgs g = Except.error e := by
  constructor
  · rw [_html_block, hd]
  · obtain ⟨e, hme⟩ := mapExcept_error_of_mem parseDateKeyed msgs m hm
      (fun y hy => by simp [parseDateKeyed, hd] at hy)
    exact ⟨e, by simp [build_thread_ticket, hme, Except.instMonad, Except.bind]⟩

/-- Witness for `no_date_parse_raises` at a concrete Date-less message. -/
theorem no_date_parse_raises_witness :
    _html_block ([("From", "x@y.z")] : Headers) "hi" = Except.error PyErr.dateParse
    ∧ ∃ e, build_thread_ticket [(([("From", "x@y.z")] : Headers), "hi")] 3
        = Except.error e :=
  no_date_parse_raises ([("From", "x@y.z")], "hi") rfl _ 3 (List.mem_singleton.mpr rfl)

/-- The concrete header mapping refuting C6 as stated. -/
def c6Hdrs : Headers := [("From", "Team <abc.postmaster@example.com>")]

/-- C6, counterexample to the claim as stated: none of rules 1 to 4 match,
the extracted address does not start with any administrative pattern, yet
the predicate is true — `_SPAM_ADDR` is applied with `re.search`, which
matches the pattern anywhere in the address. -/
theorem is_spam_search_counterexample :
    matchesRules14 c6Hdrs = false
    ∧ specSpamAddrStarts (parseaddr (hgetD c6Hdrs "From")).2 = false
    ∧ _is_spam c6Hdrs = true :=
  ⟨rfl, rfl, rfl⟩

/-- C6 as amended: for a header mapping matching none of rules 1 to 4, the
noise predicate is true exactly when the lowered address extracted from
the From header CONTAINS `mailer-daemon@`, `postmaster@`, `no-reply@` or
`no_reply@` anywhere (not only as a leading segment); the predicate is a
total function, so absent headers (looked up as the empty string) never
make it raise. -/
theorem is_spam_rule5_substring (h : Headers) (hr : matchesRules14 h = false) :
    _is_spam h = spamAddrSearch (parseaddr (hgetD h "From")).2 := by
  rw [_is_spam, hr]
  simp

/-- Witness for `is_spam_rule5_substring` at a normal sender. -/
theorem is_spam_rule5_substring_witness :
    _is_spam [("From", "Alice <alice@example.com>")]
      = spamAddrSearch
          (parseaddr (hgetD [("From", "Alice <alice@example.com>")] "From")).2 :=
  is_spam_rule5_substring _ rfl

/-- The concrete archive entry refuting C7 as stated. -/
def c7RawMsg : MboxMsg :=
  ⟨[("Subject", "=?utf-8?q?Hello_World?="), ("From", "a@b.c")],
   some (asciiBytes "hi")⟩

/-- C7, counterexample to the claim as stated: `iter_messages` yields the
header mapping of `dict(msg.items())` untouched, so a RFC-2047-encoded
Subject reaches the downstream components as its raw wire form, which
differs from its decoding. -/
theorem iter_messages_raw_headers_counterexample :
    (iter_messages [c7RawMsg]).map Prod.fst = [c7RawMsg.headers]
    ∧ hgetD c7RawMsg.headers "Subject" = "=?utf-8?q?Hello_World?="
    ∧ _decode "=?utf-8?q?Hello_World?=" = "Hello World"
    ∧ ¬ _decode (hgetD c7RawMsg.headers "Subject")
        = hgetD c7RawMsg.headers "Subject" := by
  refine ⟨by decide, by decide, by decide, by decide⟩

/-- C7 as amended: every pair yielded by `iter_messages` carries the raw
(undecoded) header mapping of some archive entry and the
replacement-decoded body of that entry, which is never whitespace-only; decoding of
header values happens later (in `_decode` at rendering time), and
undecodable body bytes become U+FFFD instead of raising, shown at a
concrete body containing the invalid byte 0xFF. -/
theorem iter_messages_raw_and_nonblank (msgs : List MboxMsg) (p : Msg)
    (hp : p ∈ iter_messages msgs) :
    (¬ pyStrip p.2 = ""
      ∧ ∃ m ∈ msgs, p.1 = m.headers ∧ p.2 = decodeBody m.payload)
    ∧ strContains (decodeBody (some [104, 105, 255])) "�" = true := by
  refine ⟨?_, rfl⟩
  rw [iter_messages] at hp
  obtain ⟨m, hm, hf⟩ := List.mem_filterMap.mp hp
  dsimp only at hf
  by_cases hb : pyStrip (decodeBody m.payload) = ""
  · rw [if_pos hb] at hf
    cases hf
  · rw [if_neg hb, Option.some.injEq] at hf
    refine ⟨?_, m, hm, ?_, ?_⟩
    · rw [← hf]
      exact hb
    · rw [← hf]
    · rw [← hf]

/-- A plain archive entry for the C7 witness. -/
def c7PlainMsg : MboxMsg := ⟨[("A", "x")], some (asciiBytes "hi")⟩

/-- Witness for `iter_messages_raw_and_nonblank` at a concrete archive. -/
theorem iter_messages_raw_and_nonblank_witness :
    (¬ pyStrip ((([("A", "x")] : Headers), "hi") : Msg).2 = ""
      ∧ ∃ m ∈ [c7PlainMsg],
          ((([("A", "x")] : Headers), "hi") : Msg).1 = m.headers
          ∧ ((([("A", "x")] : Headers), "hi") : Msg).2 = decodeBody m.payload)
    ∧ strContains (decodeBody (some [104, 105, 255])) "�" = true :=
  iter_messages_raw_and_nonblank [c7PlainMsg] ([("A", "x")], "hi") (by decide)

/-- C8: the wire payload `model_dump(exclude_none=True)` contains a key for
an optional field exactly when the field is set; in particular a payload
with no requester email serializes without any `email` key, and likewise
for `name` and `group_id`. -/
theorem modelDump_omits_unset_optionals (t : TicketPayload) :
    ("email" ∈ (modelDumpExcludeNone t).map Prod.fst ↔ ¬ t.email = none)
    ∧ ("name" ∈ (modelDumpExcludeNone t).map Prod.fst ↔ ¬ t.name = none)
    ∧ ("group_id" ∈ (modelDumpExcludeNone t).map Prod.fst
        ↔ ¬ t.group_id = none) := by
  obtain ⟨e, n, s, d, st, pr, tg, g, cf⟩ := t
  cases e <;> cases n <;> cases g <;>
    simp [modelDumpExcludeNone]

/-! ## A concrete archive: two messages of one thread plus one unrelated -/

/-- First message of the Gmail thread `T1`. -/
def sampleMsg1 : MboxMsg :=
  ⟨[("From", "Alice <alice@example.com>"),
    ("Date", "Mon, 1 Jan 2024 10:00:00 +0000"),
    ("Subject", "Hello"), ("Message-ID", "<m1@x>"), ("X-GM-THRID", "T1")],
   some (asciiBytes "first message")⟩

/-- Second message of the same Gmail thread `T1`. -/
def sampleMsg2 : MboxMsg :=
  ⟨[("From", "Bob <bob@example.com>"),
    ("Date", "Tue, 2 Jan 2024 11:00:00 +0000"),
    ("Subject", "Re: Hello"), ("Message-ID", "<m2@x>"), ("X-GM-THRID", "T1")],
   some (asciiBytes "second message")⟩

/-- An unrelated message with no thread id header. -/
def sampleMsg3 : MboxMsg :=
  ⟨[("From", "Carol <carol@example.com>"),
    ("Date", "Wed, 3 Jan 2024 12:00:00 +0000"),
    ("Subject", "Other"), ("Message-ID", "<m3@x>")],
   some (asciiBytes "third message")⟩

/-- C1 fails on the code (code bug): `sync` consults the progress store
only during the collection phase and records only during the push loop,
so an archive whose two non-noise messages share `X-GM-THRID` gets two
successful pushes with the same ThreadKey `T1` in one clean run —
contradicting both the spec invariant and the claim printed by the
program itself of importing
"without duplicates".  The across-run half of the claim does
hold: with `T1` already in a retained store, no push is issued at all
(second conjunct). -/
theorem sync_duplicate_thread_pushes_in_one_run :
    (sync false [] [sampleMsg1, sampleMsg2] 9 okPush).pushes.map Prod.fst
      = ["T1", "T1"]
    ∧ (sync false ["T1"] [sampleMsg1, sampleMsg2] 9 okPush).pushes.map Prod.fst
      = [] := by
  exact ⟨by decide, by decide⟩

/-- C2 fails on the code (code bug): on the end-to-end archive of the spec
(two messages sharing thread id `T1` plus one unrelated message, no
noise) a clean run issues three pushes, not two: `sync` wraps every
single message in its own one-message ticket and never aggregates a
thread, and the duplicate `T1` slips past the store check.  Each pushed
description contains the body of exactly one message (so no ticket combines
the two thread messages).  The remaining parts of the scenario do hold:
both ThreadKeys end up recorded, the store file is deleted, and the exit
code is 0. -/
theorem sync_end_to_end_three_single_pushes :
    (sync false [] [sampleMsg1, sampleMsg2, sampleMsg3] 9 okPush).pushes.map
        Prod.fst = ["T1", "T1", "<m3@x>"]
    ∧ (sync false [] [sampleMsg1, sampleMsg2, sampleMsg3] 9 okPush).pushes.map
        (fun p => strContains p.2.description "first message")
      = [true, false, false]
    ∧ (sync false [] [sampleMsg1, sampleMsg2, sampleMsg3] 9 okPush).pushes.map
        (fun p => strContains p.2.description "second message")
      = [false, true, false]
    ∧ (sync false [] [sampleMsg1, sampleMsg2, sampleMsg3] 9 okPush).storeDeleted
      = true
    ∧ (sync false [] [sampleMsg1, sampleMsg2, sampleMsg3] 9 okPush).exitCode = 0
    ∧ (sync false [] [sampleMsg1, sampleMsg2, sampleMsg3] 9 okPush).store
      = ["T1", "<m3@x>"] := by
  exact ⟨by decide, by decide, by decide, by decide, by decide, by decide⟩

/-! ## Thread ordering and the in-place sort -/

/-- The instant of the parsed Date of a message (0 for an unparsable date;
every message reaching a sorted state has a parsable one). -/
def epochKey (m : Msg) : Int :=
  match parsedate (hgetD m.1 "Date") with
  | some d => toEpoch d
  | none => 0

instance : IsTotal (Int × Msg) keyLE := ⟨fun p q => Int.le_total p.1 q.1⟩

instance : IsTrans (Int × Msg) keyLE := ⟨fun _ _ _ hab hbc => le_trans hab hbc⟩

/-- Insertion in front of a one-element list with a smaller-or-equal key. -/
theorem oI_two (p q : Int × Msg) (hpq : p.1 ≤ q.1) :
    List.orderedInsert keyLE p [q] = [p, q] := by
  simp only [List.orderedInsert, keyLE]
  rw [if_pos hpq]

/-- Insertion behind a one-element list with a strictly smaller key. -/
theorem oI_two_swap (p q : Int × Msg) (hpq : ¬ p.1 ≤ q.1) :
    List.orderedInsert keyLE p [q] = [q, p] := by
  simp only [List.orderedInsert, keyLE]
  rw [if_neg hpq]

/-- Insertion at the head of a two-element list. -/
theorem oI_three_head (p q r : Int × Msg) (h1 : p.1 ≤ q.1) :
    List.orderedInsert keyLE p [q, r] = [p, q, r] := by
  simp only [List.orderedInsert, keyLE]
  rw [if_pos h1]

/-- Insertion in the middle of a two-element list. -/
theorem oI_three_mid (p q r : Int × Msg) (h1 : ¬ p.1 ≤ q.1) (h2 : p.1 ≤ r.1) :
    List.orderedInsert keyLE p [q, r] = [q, p, r] := by
  simp only [List.orderedInsert, keyLE]
  rw [if_neg h1, if_pos h2]

/-- Insertion at the end of a two-element list. -/
theorem oI_three_last (p q r : Int × Msg) (h1 : ¬ p.1 ≤ q.1) (h2 : ¬ p.1 ≤ r.1) :
    List.orderedInsert keyLE p [q, r] = [q, r, p] := by
  simp only [List.orderedInsert, keyLE]
  rw [if_neg h1, if_neg h2]

/-- The stable sort of three strictly ordered keys, computed for each of
the six possible input orders. -/
theorem sortKeyed_three (e1 e2 e3 : Int) (a b c : Msg)
    (h12 : e1 < e2) (h23 : e2 < e3) :
    sortKeyed [(e1, a), (e2, b), (e3, c)] = [(e1, a), (e2, b), (e3, c)]
    ∧ sortKeyed [(e1, a), (e3, c), (e2, b)] = [(e1, a), (e2, b), (e3, c)]
    ∧ sortKeyed [(e2, b), (e1, a), (e3, c)] = [(e1, a), (e2, b), (e3, c)]
    ∧ sortKeyed [(e2, b), (e3, c), (e1, a)] = [(e1, a), (e2, b), (e3, c)]
    ∧ sortKeyed [(e3, c), (e1, a), (e2, b)] = [(e1, a), (e2, b), (e3, c)]
    ∧ sortKeyed [(e3, c), (e2, b), (e1, a)] = [(e1, a), (e2, b), (e3, c)] := by
  refine ⟨?_, ?_, ?_, ?_, ?_, ?_⟩
  · show List.orderedInsert keyLE (e1, a)
      (List.orderedInsert keyLE (e2, b) [(e3, c)]) = _
    rw [oI_two _ _ (by omega), oI_three_head _ _ _ (by omega)]
  · show List.orderedInsert keyLE (e1, a)
      (List.orderedInsert keyLE (e3, c) [(e2, b)]) = _
    rw [oI_two_swap _ _ (by omega), oI_three_head _ _ _ (by omega)]
  · show List.orderedInsert keyLE (e2, b)
      (List.orderedInsert keyLE (e1, a) [(e3, c)]) = _
    rw [oI_two _ _ (by omega), oI_three_mid _ _ _ (by omega) (by omega)]
  · show List.orderedInsert keyLE (e2, b)
      (List.orderedInsert keyLE (e3, c) [(e1, a)]) = _
    rw [oI_two_swap _ _ (by omega), oI_three_mid _ _ _ (by omega) (by omega)]
  · show List.orderedInsert keyLE (e3, c)
      (List.orderedInsert keyLE (e1, a) [(e2, b)]) = _
    rw [oI_two _ _ (by omega), oI_three_last _ _ _ (by omega) (by omega)]
  · show List.orderedInsert keyLE (e3, c)
      (List.orderedInsert keyLE (e2, b) [(e1, a)]) = _
    rw [oI_two_swap _ _ (by omega), oI_three_last _ _ _ (by omega) (by omega)]

/-- The six possible input orders of three messages. -/
def sixOrders (a b c : Msg) : List (List Msg) :=
  [[a, b, c], [a, c, b], [b, a, c], [b, c, a], [c, a, b], [c, b, a]]

/-- A successful key computation pass returns the messages in order next
to their epoch keys. -/
theorem mapExcept_parseDateKeyed_ok (msgs : List Msg) (keyed : List (Int × Msg))
    (h : mapExcept parseDateKeyed msgs = Except.ok keyed) :
    keyed.map (·.2) = msgs ∧ ∀ p ∈ keyed, p.1 = epochKey p.2 := by
  induction msgs generalizing keyed with
  | nil =>
    simp only [mapExcept] at h
    injection h with h2
    subst h2
    exact ⟨rfl, fun p hp => absurd hp (List.not_mem_nil p)⟩
  | cons x xs ih =>
    simp only [mapExcept] at h
    cases hfx : parseDateKeyed x with
    | error e => rw [hfx] at h; exact Except.noConfusion h
    | ok y =>
      rw [hfx] at h
      cases hm : mapExcept parseDateKeyed xs with
      | error e => rw [hm] at h; exact Except.noConfusion h
      | ok ys =>
        rw [hm] at h
        injection h with h2
        subst h2
        obtain ⟨ih1, ih2⟩ := ih ys hm
        have hy : y.2 = x ∧ y.1 = epochKey x := by
          cases hd : parsedate (hgetD x.1 "Date") with
          | none =>
            simp only [parseDateKeyed, hd] at hfx
            exact Except.noConfusion hfx
          | some d =>
            simp only [parseDateKeyed, hd] at hfx
            injection hfx with h5
            subst h5
            exact ⟨rfl, by simp only [epochKey, hd]⟩
        refine ⟨?_, ?_⟩
        · simp only [List.map_cons, ih1, hy.1]
        · intro p hp
          rcases List.mem_cons.mp hp with rfl | hp2
          · rw [hy.2, hy.1]
          · exact ih2 p hp2

/-- C10: `build_thread_ticket` sorts its `messages` argument in place:
whenever it returns, the list of the caller (the second component of the
returned pair in this embedding) is a permutation of the input arranged
in ascending parsed sent-time order — an observable frame effect on the
input, not a pure construction. -/
theorem build_thread_ticket_sorts_in_place (msgs : List Msg) (g : Int)
    (t : TicketPayload) (out : List Msg)
    (h : build_thread_ticket msgs g = Except.ok (t, out)) :
    out.Perm msgs ∧ out.Pairwise (fun x y => epochKey x ≤ epochKey y) := by
  cases hk : mapExcept parseDateKeyed msgs with
  | error e =>
    simp only [build_thread_ticket, hk] at h
    exact Except.noConfusion h
  | ok keyed =>
    simp only [build_thread_ticket, hk] at h
    cases hs : (sortKeyed keyed).map (·.2) with
    | nil =>
      simp only [hs] at h
      exact Except.noConfusion h
    | cons first rest =>
      simp only [hs] at h
      cases hb : mapExcept (fun m => _html_block m.1 m.2) (first :: rest) with
      | error e =>
        simp only [hb] at h
        exact Except.noConfusion h
      | ok blocks =>
        simp only [hb] at h
        cases hd : parsedate (hgetD first.1 "Date") with
        | none =>
          simp only [hd] at h
          exact Except.noConfusion h
        | some sent_at =>
          simp only [hd] at h
          injection h with h2
          injection h2 with h3 h4
          subst h4
          rw [← hs]
          obtain ⟨hmap, hkeys⟩ := mapExcept_parseDateKeyed_ok msgs keyed hk
          have hperm : (sortKeyed keyed).Perm keyed :=
            List.perm_insertionSort keyLE keyed
          constructor
          · have hpm := hperm.map (fun p : Int × Msg => p.2)
            rw [hmap] at hpm
            exact hpm
          · have hsorted : List.Pairwise keyLE (sortKeyed keyed) :=
              List.sorted_insertionSort keyLE keyed
            have hp2 : List.Pairwise
                (fun p q : Int × Msg => epochKey p.2 ≤ epochKey q.2)
                (sortKeyed keyed) := by
              refine List.Pairwise.imp_of_mem ?_ hsorted
              intro p q hp hq hle
              rw [← hkeys p (hperm.mem_iff.mp hp), ← hkeys q (hperm.mem_iff.mp hq)]
              exact hle
            exact List.pairwise_map.mpr hp2

/-- C9: for three messages whose parsed dates are strictly increasing
D1 < D2 < D3, `build_thread_ticket` on any of the six input orders
renders the description blocks in D1, D2, D3 order, takes the requester
address, requester name and subject from the D1 message (with the
literal `(no subject)` exactly when the decoded subject of that message is
empty), dates the custom field from D1, and leaves the list sorted. -/
theorem build_thread_ticket_orders_by_date (m1 m2 m3 : Msg) (g : Int)
    (d1 d2 d3 : PDate)
    (h1 : parsedate (hgetD m1.1 "Date") = some d1)
    (h2 : parsedate (hgetD m2.1 "Date") = some d2)
    (h3 : parsedate (hgetD m3.1 "Date") = some d3)
    (o12 : toEpoch d1 < toEpoch d2) (o23 : toEpoch d2 < toEpoch d3)
    (input : List Msg) (hin : input ∈ sixOrders m1 m2 m3) :
    build_thread_ticket input g = Except.ok
      ({ email := if (parseaddr (hgetD m1.1 "From")).2 = "" then none
                  else some (parseaddr (hgetD m1.1 "From")).2,
         name := if pyStrip (_decode (parseaddr (hgetD m1.1 "From")).1) = ""
                 then none
                 else some (pyStrip (_decode (parseaddr (hgetD m1.1 "From")).1)),
         subject := if _decode (hgetD m1.1 "Subject") = "" then "(no subject)"
                    else _decode (hgetD m1.1 "Subject"),
         description := String.intercalate "<hr>"
           [renderBlock d1 m1.1 m1.2, renderBlock d2 m2.1 m2.2,
            renderBlock d3 m3.1 m3.2],
         group_id := some g,
         tags := ["imported"],
         custom_fields := [(original_date_field, dateIso d1)] },
       [m1, m2, m3]) := by
  have hsix := sortKeyed_three (toEpoch d1) (toEpoch d2) (toEpoch d3)
    m1 m2 m3 o12 o23
  simp only [sixOrders, List.mem_cons, List.mem_singleton,
    List.not_mem_nil, or_false] at hin
  rcases hin with rfl | rfl | rfl | rfl | rfl | rfl
  · simp only [build_thread_ticket, mapExcept, parseDateKeyed, h1, h2, h3,
      hsix.1, List.map_cons, List.map_nil, _html_block]
  · simp only [build_thread_ticket, mapExcept, parseDateKeyed, h1, h2, h3,
      hsix.2.1, List.map_cons, List.map_nil, _html_block]
  · simp only [build_thread_ticket, mapExcept, parseDateKeyed, h1, h2, h3,
      hsix.2.2.1, List.map_cons, List.map_nil, _html_block]
  · simp only [build_thread_ticket, mapExcept, parseDateKeyed, h1, h2, h3,
      hsix.2.2.2.1, List.map_cons, List.map_nil, _html_block]
  · simp only [build_thread_ticket, mapExcept, parseDateKeyed, h1, h2, h3,
      hsix.2.2.2.2.1, List.map_cons, List.map_nil, _html_block]
  · simp only [build_thread_ticket, mapExcept, parseDateKeyed, h1, h2, h3,
      hsix.2.2.2.2.2, List.map_cons, List.map_nil, _html_block]

/-- First witness message (earliest date). -/
def wMsg1 : Msg :=
  ([("From", "Alice <alice@example.com>"),
    ("Date", "Mon, 1 Jan 2024 10:00:00 +0000"), ("Subject", "Hello")], "a")

/-- Second witness message. -/
def wMsg2 : Msg :=
  ([("From", "Bob <bob@example.com>"),
    ("Date", "Tue, 2 Jan 2024 11:00:00 +0000"), ("Subject", "Re: Hello")], "b")

/-- Third witness message (latest date). -/
def wMsg3 : Msg :=
  ([("From", "Carol <carol@example.com>"),
    ("Date", "Wed, 3 Jan 2024 12:00:00 +0000"), ("Subject", "Other")], "c")

set_option maxRecDepth 8000 in
/-- Witness for `build_thread_ticket_orders_by_date` on a shuffled input. -/
theorem build_thread_ticket_orders_by_date_witness :
    build_thread_ticket [wMsg2, wMsg1, wMsg3] 5 = Except.ok
      ({ email := some "alice@example.com",
         name := some "Alice",
         subject := "Hello",
         description := String.intercalate "<hr>"
           [renderBlock ⟨2024, 1, 1, 10, 0, 0, 0⟩ wMsg1.1 wMsg1.2,
            renderBlock ⟨2024, 1, 2, 11, 0, 0, 0⟩ wMsg2.1 wMsg2.2,
            renderBlock ⟨2024, 1, 3, 12, 0, 0, 0⟩ wMsg3.1 wMsg3.2],
         group_id := some 5,
         tags := ["imported"],
         custom_fields := [("cf_original_date", "2024-01-01")] },
       [wMsg1, wMsg2, wMsg3]) := by
  have h := build_thread_ticket_orders_by_date wMsg1 wMsg2 wMsg3 5
    ⟨2024, 1, 1, 10, 0, 0, 0⟩ ⟨2024, 1, 2, 11, 0, 0, 0⟩
    ⟨2024, 1, 3, 12, 0, 0, 0⟩
    (by decide) (by decide) (by decide) (by decide) (by decide)
    [wMsg2, wMsg1, wMsg3] (by decide)
  rw [h]
  decide

set_option maxRecDepth 8000 in
/-- Witness for `build_thread_ticket_sorts_in_place`: a two-message call
whose input order is reversed relative to the dates. -/
theorem build_thread_ticket_sorts_in_place_witness :
    List.Perm [wMsg1, wMsg2] [wMsg2, wMsg1]
    ∧ List.Pairwise (fun x y => epochKey x ≤ epochKey y) [wMsg1, wMsg2] :=
  build_thread_ticket_sorts_in_place [wMsg2, wMsg1] 5
    { email := some "alice@example.com",
      name := some "Alice",
      subject := "Hello",
      description := String.intercalate "<hr>"
        [renderBlock ⟨2024, 1, 1, 10, 0, 0, 0⟩ wMsg1.1 wMsg1.2,
         renderBlock ⟨2024, 1, 2, 11, 0, 0, 0⟩ wMsg2.1 wMsg2.2],
      group_id := some 5,
      tags := ["imported"],
      custom_fields := [("cf_original_date", "2024-01-01")] }
    [wMsg1, wMsg2] (by decide)
